import Mathlib

/-
Verification of the HR geofenced-attendance app (single-page JS application).

The embedding below follows the app's class `HRApp` method by method:
state stored in `this.mockDB` (users / companies), `this.currentUser`,
`this.currentPosition` and `this.pendingUser` becomes the structure
`AppState`; each method becomes a function `AppState → ... → AppState`
(commands that show an alert and abort are modelled by returning the state
unchanged together with a result code).  JavaScript numbers are modelled by
real numbers, absent-or-null fields by `Option`, and the JS objects
`mockDB.users` / `mockDB.companies` by finite maps `String → Option _`.
DOM reads (`document.getElementById(...).value` with `.trim()` /
`.toLowerCase()` / `.toUpperCase()` applied at the read site) are modelled as
function parameters carrying the already-normalized value.  A thrown
TypeError (e.g. property access on `undefined`) aborts the JS handler before
`saveDB()`, so it is modelled as returning the state unchanged with an error
result.
-/

namespace HRApp

/-! ### Embedded data model and operations -/

/-- Real-valued model of JavaScript `Math.atan2 y x`. -/
noncomputable def atan2 (y x : ℝ) : ℝ :=
  if 0 < x then Real.arctan (y / x)
  else if x < 0 then
    (if 0 ≤ y then Real.arctan (y / x) + Real.pi else Real.arctan (y / x) - Real.pi)
  else
    (if 0 < y then Real.pi / 2 else if y < 0 then -(Real.pi / 2) else 0)

/-- Embeds `deg2rad(deg) { return deg * (Math.PI / 180) }`. -/
noncomputable def deg2rad (deg : ℝ) : ℝ :=
  deg * (Real.pi / 180)

/-- The geofence radius constant `this.MAX_DISTANCE_METERS = 100`. -/
def MAX_DISTANCE_METERS : ℝ := 100

/-- The intermediate `var a = sin(dLat/2)*sin(dLat/2) + cos(deg2rad lat1) *
cos(deg2rad lat2) * sin(dLon/2)*sin(dLon/2)` of the haversine computation,
with `dLat = deg2rad (lat2 - lat1)` and `dLon = deg2rad (lon2 - lon1)`
inlined. -/
noncomputable def hav_a (lat1 lon1 lat2 lon2 : ℝ) : ℝ :=
  Real.sin (deg2rad (lat2 - lat1) / 2) * Real.sin (deg2rad (lat2 - lat1) / 2) +
    Real.cos (deg2rad lat1) * Real.cos (deg2rad lat2) *
      Real.sin (deg2rad (lon2 - lon1) / 2) * Real.sin (deg2rad (lon2 - lon1) / 2)

/-- Embeds `getDistanceFromLatLonInMeters(lat1, lon1, lat2, lon2)`:
`c = 2 * atan2(sqrt a, sqrt (1-a)); d = R * c; return d * 1000` with
`R = 6371` (km). -/
noncomputable def getDistanceFromLatLonInMeters (lat1 lon1 lat2 lon2 : ℝ) : ℝ :=
  6371 * (2 * atan2 (Real.sqrt (hav_a lat1 lon1 lat2 lon2))
    (Real.sqrt (1 - hav_a lat1 lon1 lat2 lon2))) * 1000

/-- The `role` field of a user record: `'manager'` or `'employee'`. -/
inductive Role where
  | manager
  | employee
deriving DecidableEq

/-- The `status` field of a user record: `'checked-in'` or `'checked-out'`. -/
inductive Status where
  | checkedIn
  | checkedOut
deriving DecidableEq

/-- A `{ lat, lng }` position object. -/
structure Pos where
  lat : ℝ
  lng : ℝ

/-- A worksite `{ id, name, lat, lng }` stored in `company.sites`. -/
structure Site where
  id : String
  name : String
  lat : ℝ
  lng : ℝ

/-- One point `{ lat, lng, time, siteId }` of `user.history`
(pushed by `trackLocation`). -/
structure HistPoint where
  lat : ℝ
  lng : ℝ
  time : String
  siteId : String

/-- One `{ username, action, time }` entry of `company.logs`. -/
structure LogEntry where
  username : String
  action : String
  time : String
deriving DecidableEq

/-- A denormalized roster entry `{ username, contact, assignedSiteId }` of
`company.employees`. -/
structure EmployeeRef where
  username : String
  contact : String
  assignedSiteId : String
deriving DecidableEq

/-- A record of `mockDB.users`.  Fields that JavaScript leaves `null` or
absent are `none`; `checkInTime` and `lastPing` hold `Date.now()`
millisecond timestamps.  The write-only `password` field of the demo seed is
omitted (no code reads it). -/
structure User where
  role : Role
  companyId : Option String := none
  email : Option String := none
  phone : Option String := none
  passcode : Option String := none
  assignedSiteId : Option String := none
  status : Option Status := none
  verified : Bool := true
  verifyCode : Option String := none
  checkInTime : Option Nat := none
  lastPing : Option Nat := none
  history : List HistPoint := []

/-- A record of `mockDB.companies`. -/
structure Company where
  name : Option String := none
  sites : List Site := []
  employees : List EmployeeRef := []
  logs : List LogEntry := []

/-- The session object `this.currentUser = { username, ...user }`; only the
fields the code reads back (`username`, `role`, `companyId`) are kept. -/
structure SessionUser where
  username : String
  role : Role
  companyId : Option String

/-- The application state: the persisted store `this.mockDB` (`users`,
`companies`), plus `this.currentUser`, `this.currentPosition` and
`this.pendingUser` (the latter stores just the username being verified). -/
structure AppState where
  users : String → Option User
  companies : String → Option Company
  currentUser : Option SessionUser
  currentPosition : Option Pos
  pendingUser : Option String

/-- Assignment `mockDB.users[k] = v` on the user map. -/
def updateUser (m : String → Option User) (k : String) (v : User) :
    String → Option User :=
  fun n => if n = k then some v else m n

/-- Deletion `delete mockDB.users[k]` on the user map. -/
def removeUser (m : String → Option User) (k : String) :
    String → Option User :=
  fun n => if n = k then none else m n

/-- Assignment `mockDB.companies[k] = v` on the company map. -/
def updateCompany (m : String → Option Company) (k : String) (v : Company) :
    String → Option Company :=
  fun n => if n = k then some v else m n

/-- Embeds `company.sites.find(s => s.id === user.assignedSiteId)`; a `null`
`assignedSiteId` matches no site. -/
def findSite (sites : List Site) (sid : Option String) : Option Site :=
  sites.find? (fun st => sid = some st.id)

/-- The site-resolution chain of `checkIn` / `monitorGeofence`:
`this.mockDB.companies[this.currentUser.companyId]` followed by
`company?.sites.find(s => s.id === user.assignedSiteId)` (the optional chain
yields `undefined` when the company record is missing). -/
def siteLookup (s : AppState) (cu : SessionUser) (user : User) : Option Site :=
  match cu.companyId with
  | none => none
  | some cid =>
    match s.companies cid with
    | none => none
    | some comp => findSite comp.sites user.assignedSiteId

/-- One `addLog(companyId, username, action, time)` call: `unshift` the new
entry, then `pop` once the length exceeds 20.  A missing company record
makes the JS throw on `company.logs` before anything is recorded. -/
def logStep (l : List LogEntry) (e : LogEntry) : List LogEntry :=
  if 20 < (e :: l).length then (e :: l).dropLast else e :: l

def addLog (s : AppState) (companyId username action time : String) : AppState :=
  match s.companies companyId with
  | none => s
  | some comp =>
    let l2 := logStep comp.logs { username := username, action := action, time := time }
    { s with companies := updateCompany s.companies companyId ({ comp with logs := l2 }) }

def histStep (h : List HistPoint) (x : HistPoint) : List HistPoint :=
  if 50 < (h ++ [x]).length then (h ++ [x]).tail else h ++ [x]

/-- One `trackLocation(siteId)` call: returns unchanged when position or
session is missing or the user record is gone; otherwise pushes
`{lat, lng, time, siteId}` onto `user.history` and `shift`s the front once
the length exceeds 50. -/
def trackLocation (s : AppState) (siteId timeStr : String) : AppState :=
  match s.currentPosition, s.currentUser with
  | some pos, some cu =>
    match s.users cu.username with
    | none => s
    | some user =>
      let h2 := histStep user.history
        { lat := pos.lat, lng := pos.lng, time := timeStr, siteId := siteId }
      { s with users := updateUser s.users cu.username ({ user with history := h2 }) }
  | _, _ => s

/-- Embeds `checkOut(reason)`: no-op when session or user record is missing;
otherwise sets `status = 'checked-out'`, `checkInTime = null` and appends a
log entry with the reason.  When the session has no company id the JS
`addLog` throws after the user mutation, recording no log entry. -/
def checkOut (s : AppState) (reason timeStr : String) : AppState :=
  match s.currentUser with
  | none => s
  | some cu =>
    match s.users cu.username with
    | none => s
    | some user =>
      let u1 : User := { user with status := some .checkedOut, checkInTime := none }
      let s1 := { s with users := updateUser s.users cu.username u1 }
      match cu.companyId with
      | none => s1
      | some cid => addLog s1 cid cu.username reason timeStr

/-- Outcome of a `checkIn()` call, one constructor per `alert`-and-return
path plus `success`.  `noSession` stands for the TypeError thrown when
`this.currentUser` is `null` or the user record is gone (the handler aborts
with the global error alert, leaving the store unchanged). -/
inductive CheckInResult where
  | noGPS
  | noSession
  | noSite
  | tooFar
  | success
deriving DecidableEq

/-- Embeds `checkIn()` (with `Date.now()` as `now`, and the two formatted
time strings passed to `trackLocation` / `addLog` as `histTime` /
`logTime`).  On success it sets `status`, `checkInTime`, `lastPing`, records
the first history point via `trackLocation(site.id)`, and appends the
`"Check-In @ <siteName>"` log entry; the recurring 5-minute tracking timer
only repeats `trackLocation` and is modelled by later `trackLocation`
events. -/
noncomputable def checkIn (s : AppState) (now : Nat) (histTime logTime : String) :
    AppState × CheckInResult :=
  match s.currentPosition with
  | none => (s, .noGPS)
  | some pos =>
    match s.currentUser with
    | none => (s, .noSession)
    | some cu =>
      match s.users cu.username with
      | none => (s, .noSession)
      | some user =>
        match siteLookup s cu user with
        | none => (s, .noSite)
        | some site =>
          if MAX_DISTANCE_METERS <
              getDistanceFromLatLonInMeters pos.lat pos.lng site.lat site.lng then
            (s, .tooFar)
          else
            let u1 : User := { user with
              status := some .checkedIn
              checkInTime := some now
              lastPing := some now }
            let s1 := { s with users := updateUser s.users cu.username u1 }
            let s2 := trackLocation s1 site.id histTime
            let s3 := match cu.companyId with
              | some cid => addLog s2 cid cu.username ("Check-In @ " ++ site.name) logTime
              | none => s2
            (s3, .success)

/-- Embeds `monitorGeofence()`: only acts on a checked-in user with an
existing assigned site and a known position; outside the strict 100 m
radius it performs `checkOut("Geofence Exit")` and deliberately does not log
the user out. -/
noncomputable def monitorGeofence (s : AppState) (timeStr : String) : AppState :=
  match s.currentUser with
  | none => s
  | some cu =>
    match s.users cu.username with
    | none => s
    | some user =>
      if user.status = some .checkedIn then
        match siteLookup s cu user with
        | none => s
        | some site =>
          match s.currentPosition with
          | none => s
          | some pos =>
            if MAX_DISTANCE_METERS <
                getDistanceFromLatLonInMeters pos.lat pos.lng site.lat site.lng then
              checkOut s "Geofence Exit" timeStr
            else s
      else s

/-- Delivery of one position sample by the `watchPosition` success callback:
store the sample in `this.currentPosition`, then run `monitorGeofence()` if
the active session belongs to an employee. -/
noncomputable def positionSample (s : AppState) (p : Pos) (timeStr : String) : AppState :=
  let s1 := { s with currentPosition := some p }
  match s1.currentUser with
  | some cu => if cu.role = .employee then monitorGeofence s1 timeStr else s1
  | none => s1

/-- Outcome of a `login()` call, one constructor per abort path.
`companyMissing` stands for the TypeError thrown on `company.sites` when the
user's company record is absent. -/
inductive LoginResult where
  | emptyUsername
  | userNotFound
  | noCompanyYet
  | wrongCompany
  | passcodeRequired
  | wrongPasscode
  | needVerify
  | notLinked
  | deferredNoGPS
  | companyMissing
  | siteMissing
  | deniedTooFar
  | success
deriving DecidableEq

/-- The successful tail of `login()`: `this.currentUser = {username, ...user}`
is stored (and persisted). -/
def loginSuccess (s : AppState) (user : User) (username : String) :
    AppState × LoginResult :=
  let cu1 : SessionUser := { username := username, role := user.role, companyId := user.companyId }
  ({ s with currentUser := some cu1 }, .success)

/-- The strict location check of `login()` (employees only): a missing
position defers the login (the one-shot `getCurrentPosition` it fires is a
separate asynchronous event), then the distance to the assigned site is
checked against `MAX_DISTANCE_METERS` using `this.mockDB.companies[user.companyId]`. -/
noncomputable def loginLocated (s : AppState) (user : User) (username companyId : String) :
    AppState × LoginResult :=
  if user.role = .employee then
    match s.currentPosition with
    | none => (s, .deferredNoGPS)
    | some pos =>
      match s.companies companyId with
      | none => (s, .companyMissing)
      | some comp =>
        match findSite comp.sites user.assignedSiteId with
        | none => (s, .siteMissing)
        | some site =>
          if MAX_DISTANCE_METERS <
              getDistanceFromLatLonInMeters pos.lat pos.lng site.lat site.lng then
            (s, .deniedTooFar)
          else loginSuccess s user username
  else loginSuccess s user username

/-- The verification / company-link checks of `login()`: an unverified user
is parked as `this.pendingUser` and sent to the verify view; a user with no
company id is told to ask their manager. -/
noncomputable def loginVerified (s : AppState) (user : User) (username : String) :
    AppState × LoginResult :=
  if user.verified = false then
    ({ s with pendingUser := some username }, .needVerify)
  else
    match user.companyId with
    | none => (s, .notLinked)
    | some ucid => loginLocated s user username ucid

/-- Embeds `login()`.  `username` is the lowercased trimmed username input,
`companyIdInput` the uppercased trimmed company input (empty string =
auto-detect from the user record) and `passInput` the trimmed passcode
input. -/
noncomputable def login (s : AppState) (username companyIdInput passInput : String) :
    AppState × LoginResult :=
  if username = "" then (s, .emptyUsername)
  else
    match s.users username with
    | none => (s, .userNotFound)
    | some user =>
      match (if companyIdInput = "" then user.companyId else some companyIdInput) with
      | none => (s, .noCompanyYet)
      | some companyId =>
        if user.companyId.any (fun c => c != companyId) then (s, .wrongCompany)
        else
          match user.passcode with
          | some pc =>
            if passInput = "" then (s, .passcodeRequired)
            else if passInput ≠ pc then (s, .wrongPasscode)
            else loginVerified s user username
          | none => loginVerified s user username

/-- Embeds `registerNewCompany()`.  The randomly generated company id and
manager verification code are parameters; the new manager record is created
unverified with an empty history, and a fresh empty company is stored. -/
def registerNewCompany (s : AppState) (companyName managerName companyId verifyCode : String) :
    AppState :=
  if companyName = "" ∨ managerName = "" then s
  else if (s.users managerName).isSome then s
  else
    let comp : Company := { name := some companyName, sites := [], employees := [], logs := [] }
    let mgr : User := { role := .manager
                        companyId := some companyId
                        verified := false
                        verifyCode := some verifyCode
                        history := [] }
    { s with
      companies := updateCompany s.companies companyId comp
      users := updateUser s.users managerName mgr }

/-- Embeds `registerNewEmployeeUser()` (self-registration): requires a
username and at least one of email / phone, refuses taken usernames, and
creates an unassigned, unverified, checked-out employee record.  An empty
optional field is stored as `none` (empty string and `null` are both falsy
to every later read). -/
def registerNewEmployeeUser (s : AppState) (username email phone passcode verifyCode : String) :
    AppState :=
  if username = "" then s
  else if email = "" ∧ phone = "" then s
  else if (s.users username).isSome then s
  else
    let u : User := { role := .employee
                      companyId := none
                      email := if email = "" then none else some email
                      phone := if phone = "" then none else some phone
                      passcode := if passcode = "" then none else some passcode
                      assignedSiteId := none
                      status := some .checkedOut
                      verified := false
                      verifyCode := some verifyCode
                      history := [] }
    { s with users := updateUser s.users username u }

/-- Updates the first roster entry with the given username (the
`company.employees.find(...)` / `existing.assignedSiteId = siteId` pair of
`registerEmployee` scenario 4). -/
def setRosterSite : List EmployeeRef → String → String → List EmployeeRef
  | [], _, _ => []
  | e :: es, uname, sid =>
    if e.username = uname then { e with assignedSiteId := sid } :: es
    else e :: setRosterSite es uname sid

/-- The "Add to Company List if not present" tail of `registerEmployee()`
(source lines 621-629): reads `company = mockDB.companies[currentUser.companyId]`
and pushes a roster entry when absent.  When the session has no company id or
the company record is missing, the JS throws a TypeError at
`company.employees` — after the user-record mutation already performed — so
only the roster push is lost. -/
def addToCompanyList (s : AppState) (cu : SessionUser) (username contact siteId : String) :
    AppState :=
  match cu.companyId with
  | none => s
  | some cid =>
    match s.companies cid with
    | none => s
    | some comp =>
      if (comp.employees.find? (fun e => e.username = username)).isSome then s
      else { s with companies := (updateCompany s.companies cid
        { comp with employees := comp.employees ++
          [{ username := username, contact := contact, assignedSiteId := siteId }] }) }

/-- Embeds `registerEmployee()` (manager links or creates an employee).
Scenario 1 creates a verified checked-out record; scenario 2 links an
unassigned record; scenario 3 (user of another company) aborts; scenario 4
reassigns the site.  The JS mutates the global user record first (lines 595,
599-602, 610) and touches `company` only afterwards (lines 612, 622), so
when the session's company id is null or the company record is missing the
TypeError leaves the user-record mutation in the in-memory store while the
roster update is lost; the embedding keeps those partial mutations. -/
def registerEmployee (s : AppState) (username contact siteId passcode : String) : AppState :=
  match s.currentUser with
  | none => s
  | some cu =>
    if username = "" ∨ contact = "" ∨ siteId = "" then s
    else
      match s.users username with
      | none =>
        let u : User := { role := .employee
                          companyId := cu.companyId
                          email := if contact.contains '@' then some contact else none
                          phone := if contact.contains '@' then none else some contact
                          passcode := if passcode = "" then none else some passcode
                          assignedSiteId := some siteId
                          status := some .checkedOut
                          verified := true }
        addToCompanyList ({ s with users := updateUser s.users username u })
          cu username contact siteId
      | some user =>
        match user.companyId with
        | none =>
          let u : User := { user with
            companyId := cu.companyId
            assignedSiteId := some siteId
            email := if contact.contains '@' then some contact else none
            phone := if contact.contains '@' then none else some contact }
          addToCompanyList ({ s with users := updateUser s.users username u })
            cu username contact siteId
        | some ucid =>
          if cu.companyId ≠ some ucid then s
          else
            let u : User := { user with assignedSiteId := some siteId }
            let s1 := { s with users := updateUser s.users username u }
            match s1.companies ucid with
            | none => s1
            | some comp =>
              { s1 with companies := (updateCompany s1.companies ucid
                { comp with employees := setRosterSite comp.employees username siteId }) }

/-- Embeds `verifyAccount()`: with a pending user whose record still exists,
a code matching `user.verifyCode` (or the `"1234"` master backdoor) marks the
record verified, logs the user in, clears the pending user, and creates an
empty company for a manager whose company record is missing. -/
def verifyAccount (s : AppState) (codeInput : String) : AppState :=
  match s.pendingUser with
  | none => s
  | some pname =>
    match s.users pname with
    | none => s
    | some user =>
      if user.verifyCode ≠ some codeInput ∧ codeInput ≠ "1234" then s
      else
        let u1 : User := { user with verified := true }
        let cu1 : SessionUser := { username := pname, role := user.role, companyId := user.companyId }
        let s1 := { s with
          users := updateUser s.users pname u1
          currentUser := some cu1
          pendingUser := none }
        match user.companyId with
        | some cid =>
          if (s1.companies cid).isNone ∧ user.role = .manager then
            let emptyComp : Company := { name := none, sites := [], employees := [], logs := [] }
            { s1 with companies := updateCompany s1.companies cid emptyComp }
          else s1
        | none => s1

/-- Embeds `removeEmployee(username)` after the manager clicked through the
confirmation dialog: filters the username out of the invoking session's
company roster, then deletes the global user record if present.  The company
id and role of the record being deleted are never consulted. -/
def removeEmployee (s : AppState) (username : String) : AppState :=
  match s.currentUser with
  | none => s
  | some cu =>
    match cu.companyId with
    | none => s
    | some cid =>
      match s.companies cid with
      | none => s
      | some comp =>
        let comp2 : Company :=
          { comp with employees := comp.employees.filter (fun e => e.username != username) }
        { s with
          companies := updateCompany s.companies cid comp2
          users := removeUser s.users username }

/-- A run of sequential `trackLocation` calls, each immediately preceded by
the delivery of a fresh position sample (the recurring 5-minute tracking
timer always reads `this.currentPosition` at firing time). -/
def runTrack (s : AppState) (siteId : String) : List (Pos × String) → AppState
  | [] => s
  | pr :: rest =>
    runTrack (trackLocation ({ s with currentPosition := some pr.1 }) siteId pr.2) siteId rest

/-- The history points a run of samples contributes. -/
def histPoints (samples : List (Pos × String)) (sid : String) : List HistPoint :=
  samples.map (fun pr => ⟨pr.1.lat, pr.1.lng, pr.2, sid⟩)

/-- A run of sequential `addLog` calls against a fixed company. -/
def runAddLog (s : AppState) (cid : String) : List LogEntry → AppState
  | [] => s
  | e :: rest => runAddLog (addLog s cid e.username e.action e.time) cid rest

/-- Worksite at the origin used by concrete witnesses. -/
def wSite : Site :=
  { id := "site_1", name := "Main HQ", lat := 0, lng := 0 }

/-- Company used by concrete witnesses. -/
def wCompany : Company :=
  { name := some "Acme", sites := [wSite], employees := [], logs := [] }

/-- Checked-out employee record used by concrete witnesses. -/
def wUser : User :=
  { role := .employee
    companyId := some "ACME"
    assignedSiteId := some "site_1"
    status := some .checkedOut
    verified := true
    checkInTime := none
    history := [] }

/-- Employee session used by concrete witnesses. -/
def wSession : SessionUser :=
  { username := "bob", role := .employee, companyId := some "ACME" }

/-- Base state used by concrete witnesses: employee "bob" logged in at the
worksite position. -/
def wState : AppState :=
  { users := fun n => if n = "bob" then some wUser else none
    companies := fun c => if c = "ACME" then some wCompany else none
    currentUser := some wSession
    currentPosition := some { lat := 0, lng := 0 }
    pendingUser := none }

/-- The 60 identical samples used by the C5 witness. -/
def wSamples : List (Pos × String) :=
  List.replicate 60 ({ lat := 0, lng := 0 }, "t")

/-- The 25 identical log entries used by the C6 witness. -/
def wEntries : List LogEntry :=
  List.replicate 25 { username := "bob", action := "Check-Out", time := "t" }

/-- Checked-in variant of the fixture employee record. -/
def wUserIn : User :=
  { wUser with status := some .checkedIn, checkInTime := some 5 }

/-- Fixture site one degree of longitude away from the origin. -/
def wSiteFar : Site :=
  { id := "site_1", name := "Main HQ", lat := 0, lng := 1 }

/-- Fixture company whose single site is far from the origin. -/
def wCompanyFar : Company :=
  { name := some "Acme", sites := [wSiteFar], employees := [], logs := [] }

/-- Fixture state: checked-in employee whose assigned site is one degree of
longitude away from the incoming position sample. -/
def wStateGeo : AppState :=
  { users := fun n => if n = "bob" then some wUserIn else none
    companies := fun c => if c = "ACME" then some wCompanyFar else none
    currentUser := some wSession
    currentPosition := some { lat := 0, lng := 0 }
    pendingUser := none }

/-- Fixture state whose company record has been deleted while employee "bob"
still references it. -/
def wStateNoComp : AppState :=
  { users := fun n => if n = "bob" then some wUser else none
    companies := fun _ => none
    currentUser := some wSession
    currentPosition := some { lat := 0, lng := 0 }
    pendingUser := none }

/-- Manager session fixture. -/
def wManagerSession : SessionUser :=
  { username := "boss", role := .manager, companyId := some "ACME" }

/-- Employee record belonging to a different company than the manager's. -/
def wUserOther : User :=
  { wUser with companyId := some "OTHR" }

/-- Fixture state: manager of "ACME" logged in; the global user "bob"
belongs to company "OTHR". -/
def wStateMgr : AppState :=
  { users := fun n => if n = "bob" then some wUserOther else none
    companies := fun c => if c = "ACME" then some wCompany else none
    currentUser := some wManagerSession
    currentPosition := none
    pendingUser := none }

/-- The per-record invariant: `status = 'checked-in'` forces a non-null
`checkInTime`, `status = 'checked-out'` forces a null one. -/
def UserOK (u : User) : Prop :=
  (u.status = some Status.checkedIn → u.checkInTime ≠ none) ∧
  (u.status = some Status.checkedOut → u.checkInTime = none)

/-- The invariant over the whole user table. -/
def StatusInv (s : AppState) : Prop :=
  ∀ n u, s.users n = some u → UserOK u

/-- One command of the application, with the nondeterministic inputs
(generated ids, codes, clock reads, GPS samples) as parameters. -/
inductive Op where
  | opRegisterCompany (companyName managerName companyId verifyCode : String)
  | opRegisterEmployeeSelf (username email phone passcode verifyCode : String)
  | opRegisterEmployee (username contact siteId passcode : String)
  | opVerify (code : String)
  | opLogin (username companyIdInput passInput : String)
  | opCheckIn (now : Nat) (histTime logTime : String)
  | opCheckOut (reason timeStr : String)
  | opPositionSample (p : Pos) (timeStr : String)
  | opRemoveEmployee (username : String)

/-- The transition function of the application: one user-visible command or
position-sample event. -/
noncomputable def step (s : AppState) : Op → AppState
  | .opRegisterCompany a b c d => registerNewCompany s a b c d
  | .opRegisterEmployeeSelf a b c d e => registerNewEmployeeUser s a b c d e
  | .opRegisterEmployee a b c d => registerEmployee s a b c d
  | .opVerify c => verifyAccount s c
  | .opLogin a b c => (login s a b c).1
  | .opCheckIn n h l => (checkIn s n h l).1
  | .opCheckOut r t => checkOut s r t
  | .opPositionSample p t => positionSample s p t
  | .opRemoveEmployee u => removeEmployee s u

/-! ### Lemmas and claim theorems -/

lemma hav_a_self (lat lng : ℝ) : hav_a lat lng lat lng = 0 := by
  unfold hav_a deg2rad
  simp

lemma hav_a_symm (lat1 lon1 lat2 lon2 : ℝ) :
    hav_a lat1 lon1 lat2 lon2 = hav_a lat2 lon2 lat1 lon1 := by
  unfold hav_a deg2rad
  have h : ∀ x y : ℝ, Real.sin ((x - y) * (Real.pi / 180) / 2) =
      -Real.sin ((y - x) * (Real.pi / 180) / 2) := by
    intro x y
    rw [show (x - y) * (Real.pi / 180) / 2 = -((y - x) * (Real.pi / 180) / 2) by ring,
      Real.sin_neg]
  rw [h lat2 lat1, h lon2 lon1]
  ring

lemma atan2_zero_one : atan2 0 1 = 0 := by
  unfold atan2
  rw [if_pos one_pos]
  simp

lemma dist_self (lat lng : ℝ) : getDistanceFromLatLonInMeters lat lng lat lng = 0 := by
  unfold getDistanceFromLatLonInMeters
  rw [hav_a_self]
  simp [atan2_zero_one]

lemma dist_symm (lat1 lon1 lat2 lon2 : ℝ) :
    getDistanceFromLatLonInMeters lat1 lon1 lat2 lon2 =
      getDistanceFromLatLonInMeters lat2 lon2 lat1 lon1 := by
  unfold getDistanceFromLatLonInMeters
  rw [hav_a_symm]

lemma hav_a_zero_one :
    hav_a 0 0 0 1 = Real.sin (Real.pi / 360) * Real.sin (Real.pi / 360) := by
  unfold hav_a deg2rad
  norm_num
  ring_nf

/-- Closed form of the haversine distance from (0,0) to (0,1): one degree of
longitude on the equator is `6371000 * π / 180` meters. -/
lemma dist_zero_one : getDistanceFromLatLonInMeters 0 0 0 1 = 6371000 * Real.pi / 180 := by
  have hpi := Real.pi_pos
  have hθ0 : (0 : ℝ) ≤ Real.pi / 360 := by positivity
  have hθpi : Real.pi / 360 ≤ Real.pi := by linarith
  have hθhalf : Real.pi / 360 < Real.pi / 2 := by linarith
  have hθneg : -(Real.pi / 2) < Real.pi / 360 := by linarith
  have hsin : 0 ≤ Real.sin (Real.pi / 360) :=
    Real.sin_nonneg_of_nonneg_of_le_pi hθ0 hθpi
  have hcos : 0 < Real.cos (Real.pi / 360) :=
    Real.cos_pos_of_mem_Ioo ⟨hθneg, hθhalf⟩
  have hsq1 : Real.sqrt (hav_a 0 0 0 1) = Real.sin (Real.pi / 360) := by
    rw [hav_a_zero_one, ← sq, Real.sqrt_sq hsin]
  have hsq2 : Real.sqrt (1 - hav_a 0 0 0 1) = Real.cos (Real.pi / 360) := by
    rw [hav_a_zero_one, ← sq, ← Real.cos_sq', Real.sqrt_sq hcos.le]
  have hatan : atan2 (Real.sin (Real.pi / 360)) (Real.cos (Real.pi / 360)) =
      Real.pi / 360 := by
    unfold atan2
    rw [if_pos hcos, ← Real.tan_eq_sin_div_cos, Real.arctan_tan hθneg hθhalf]
  unfold getDistanceFromLatLonInMeters
  rw [hsq1, hsq2, hatan]
  ring

/-- The distance from (0,0) to (0,1) exceeds the 100 m geofence radius. -/
lemma dist_zero_one_gt_100 :
    MAX_DISTANCE_METERS < getDistanceFromLatLonInMeters 0 0 0 1 := by
  rw [dist_zero_one, MAX_DISTANCE_METERS]
  nlinarith [Real.pi_gt_d6]

lemma updateUser_self (m : String → Option User) (k : String) (v : User) :
    updateUser m k v k = some v := by
  simp [updateUser]

lemma updateUser_ne (m : String → Option User) (k : String) (v : User) (n : String)
    (h : n ≠ k) : updateUser m k v n = m n := by
  simp [updateUser, h]

lemma updateCompany_self (m : String → Option Company) (k : String) (v : Company) :
    updateCompany m k v k = some v := by
  simp [updateCompany]

lemma updateCompany_ne (m : String → Option Company) (k : String) (v : Company) (n : String)
    (h : n ≠ k) : updateCompany m k v n = m n := by
  simp [updateCompany, h]

lemma removeUser_self (m : String → Option User) (k : String) :
    removeUser m k k = none := by
  simp [removeUser]

lemma removeUser_ne (m : String → Option User) (k : String) (n : String)
    (h : n ≠ k) : removeUser m k n = m n := by
  simp [removeUser, h]

lemma histStep_foldl (pts : List HistPoint) :
    List.foldl histStep [] pts = pts.drop (pts.length - 50) := by
  induction pts using List.reverseRecOn with
  | nil => rfl
  | append_singleton xs x ih =>
    rw [List.foldl_append, List.foldl_cons, List.foldl_nil, ih]
    unfold histStep
    by_cases h : xs.length < 50
    · have h0 : xs.length - 50 = 0 := by omega
      rw [h0, List.drop_zero]
      have hlen : ¬ 50 < (xs ++ [x]).length := by
        rw [List.length_append, List.length_singleton]; omega
      rw [if_neg hlen]
      have h1 : (xs ++ [x]).length - 50 = 0 := by
        rw [List.length_append, List.length_singleton]; omega
      rw [h1, List.drop_zero]
    · push_neg at h
      have hk : xs.length - 50 ≤ xs.length := by omega
      have hd : (xs.drop (xs.length - 50)).length = 50 := by
        rw [List.length_drop]; omega
      have hlen : 50 < ((xs.drop (xs.length - 50)) ++ [x]).length := by
        rw [List.length_append, hd, List.length_singleton]; omega
      rw [if_pos hlen, ← List.drop_append_of_le_length hk, List.tail_drop]
      congr 1
      rw [List.length_append, List.length_singleton]
      omega

lemma logStep_foldl (es : List LogEntry) :
    List.foldl logStep [] es = es.reverse.take 20 := by
  induction es using List.reverseRecOn with
  | nil => rfl
  | append_singleton xs x ih =>
    rw [List.foldl_append, List.foldl_cons, List.foldl_nil, ih]
    unfold logStep
    rw [List.reverse_append, List.reverse_singleton, List.singleton_append]
    by_cases h : xs.length < 20
    · have hfull : xs.reverse.take 20 = xs.reverse :=
        List.take_of_length_le (by rw [List.length_reverse]; omega)
      rw [hfull]
      have hlen : ¬ 20 < (x :: xs.reverse).length := by
        rw [List.length_cons, List.length_reverse]; omega
      rw [if_neg hlen]
      rw [List.take_of_length_le (by rw [List.length_cons, List.length_reverse]; omega)]
    · push_neg at h
      have hd : (xs.reverse.take 20).length = 20 := by
        rw [List.length_take, List.length_reverse]; omega
      have hlen : 20 < (x :: xs.reverse.take 20).length := by
        rw [List.length_cons, hd]; omega
      rw [if_pos hlen, List.dropLast_eq_take, List.length_cons, hd]
      rw [show (20 + 1 - 1 : ℕ) = 19 + 1 from rfl, List.take_succ_cons,
        show (20 : ℕ) = 19 + 1 from rfl, List.take_succ_cons, List.take_take]
      rw [show min 19 (19 + 1) = 19 from by omega]

lemma trackLocation_eq (s : AppState) (pos : Pos) (cu : SessionUser) (user : User)
    (sid t : String)
    (hpos : s.currentPosition = some pos) (hcu : s.currentUser = some cu)
    (hu : s.users cu.username = some user) :
    trackLocation s sid t = { s with users := (updateUser s.users cu.username
      { user with history := histStep user.history ⟨pos.lat, pos.lng, t, sid⟩ }) } := by
  unfold trackLocation
  simp only [hpos, hcu, hu]

lemma addLog_eq (s : AppState) (cid un act t : String) (comp : Company)
    (hc : s.companies cid = some comp) :
    addLog s cid un act t = { s with companies := (updateCompany s.companies cid
      { comp with logs := logStep comp.logs { username := un, action := act, time := t } }) } := by
  unfold addLog
  rw [hc]

lemma addLog_users (s : AppState) (cid un act t : String) :
    (addLog s cid un act t).users = s.users := by
  unfold addLog
  cases h : s.companies cid <;> rfl

lemma addLog_currentUser (s : AppState) (cid un act t : String) :
    (addLog s cid un act t).currentUser = s.currentUser := by
  unfold addLog
  cases h : s.companies cid <;> rfl

lemma runTrack_users (samples : List (Pos × String)) (s : AppState) (cu : SessionUser)
    (user : User) (sid : String)
    (hcu : s.currentUser = some cu) (hu : s.users cu.username = some user) :
    (runTrack s sid samples).users cu.username =
      some { user with history := List.foldl histStep user.history (histPoints samples sid) } := by
  induction samples generalizing s user with
  | nil => exact hu
  | cons pr rest ih =>
    rw [runTrack, histPoints, List.map_cons, List.foldl_cons]
    have h1 : trackLocation ({ s with currentPosition := some pr.1 }) sid pr.2 =
        { s with
          currentPosition := some pr.1
          users := (updateUser s.users cu.username
            { user with history := histStep user.history ⟨pr.1.lat, pr.1.lng, pr.2, sid⟩ }) } :=
      trackLocation_eq _ pr.1 cu user sid pr.2 rfl hcu hu
    rw [h1]
    exact ih _ ({ user with history := histStep user.history ⟨pr.1.lat, pr.1.lng, pr.2, sid⟩ })
      hcu (updateUser_self _ _ _)

lemma runAddLog_companies (es : List LogEntry) (s : AppState) (cid : String) (comp : Company)
    (hc : s.companies cid = some comp) :
    (runAddLog s cid es).companies cid =
      some { comp with logs := List.foldl logStep comp.logs es } := by
  induction es generalizing s comp with
  | nil => exact hc
  | cons e rest ih =>
    rw [runAddLog, List.foldl_cons]
    rw [addLog_eq s cid e.username e.action e.time comp hc]
    exact ih _ ({ comp with logs := logStep comp.logs e }) (updateCompany_self _ _ _)

/-- Claim C5: starting from an empty history, 60 sequential history
recordings with position known leave exactly the 50 most recent points, in
recording order. -/
theorem claim_C5_history_buffer (s : AppState) (cu : SessionUser) (user : User)
    (sid : String) (samples : List (Pos × String))
    (hcu : s.currentUser = some cu) (hu : s.users cu.username = some user)
    (hhist : user.history = []) (hlen : samples.length = 60) :
    ∃ u' : User, (runTrack s sid samples).users cu.username = some u' ∧
      u'.history.length = 50 ∧
      u'.history = (histPoints samples sid).drop 10 := by
  refine ⟨_, runTrack_users samples s cu user sid hcu hu, ?_, ?_⟩
  · show (List.foldl histStep user.history (histPoints samples sid)).length = 50
    rw [hhist, histStep_foldl, List.length_drop, histPoints, List.length_map, hlen]
  · show List.foldl histStep user.history (histPoints samples sid) =
      (histPoints samples sid).drop 10
    rw [hhist, histStep_foldl]
    congr 1
    rw [histPoints, List.length_map, hlen]

/-- Witness for claim C5 at a concrete state. -/
theorem claim_C5_history_buffer_witness :
    ∃ u' : User, (runTrack wState "site_1" wSamples).users "bob" = some u' ∧
      u'.history.length = 50 ∧
      u'.history = (histPoints wSamples "site_1").drop 10 :=
  claim_C5_history_buffer wState wSession wUser "site_1" wSamples rfl rfl rfl
    (by simp [wSamples])

/-- Claim C6: starting from an empty company log, 25 `addLog` calls leave
exactly 20 entries, newest first, the 5 oldest evicted, and no intermediate
prefix of the run ever exceeds 20 entries. -/
theorem claim_C6_log_buffer (s : AppState) (cid : String) (comp : Company)
    (es : List LogEntry)
    (hc : s.companies cid = some comp) (hlogs : comp.logs = [])
    (hlen : es.length = 25) :
    ∃ c' : Company, (runAddLog s cid es).companies cid = some c' ∧
      c'.logs.length = 20 ∧
      c'.logs = es.reverse.take 20 ∧
      c'.logs = (es.drop 5).reverse ∧
      ∀ n : ℕ, ∃ c2 : Company, (runAddLog s cid (es.take n)).companies cid = some c2 ∧
        c2.logs.length ≤ 20 := by
  refine ⟨_, runAddLog_companies es s cid comp hc, ?_, ?_, ?_, ?_⟩
  · show (List.foldl logStep comp.logs es).length = 20
    rw [hlogs, logStep_foldl, List.length_take, List.length_reverse, hlen]
    omega
  · show List.foldl logStep comp.logs es = es.reverse.take 20
    rw [hlogs, logStep_foldl]
  · show List.foldl logStep comp.logs es = (es.drop 5).reverse
    rw [hlogs, logStep_foldl, List.reverse_drop, hlen]
  · intro n
    refine ⟨_, runAddLog_companies (es.take n) s cid comp hc, ?_⟩
    show (List.foldl logStep comp.logs (es.take n)).length ≤ 20
    rw [hlogs, logStep_foldl, List.length_take, List.length_reverse, List.length_take]
    omega

/-- Witness for claim C6 at a concrete state. -/
theorem claim_C6_log_buffer_witness :
    ∃ c' : Company, (runAddLog wState "ACME" wEntries).companies "ACME" = some c' ∧
      c'.logs.length = 20 ∧
      c'.logs = wEntries.reverse.take 20 ∧
      c'.logs = (wEntries.drop 5).reverse ∧
      ∀ n : ℕ, ∃ c2 : Company,
        (runAddLog wState "ACME" (wEntries.take n)).companies "ACME" = some c2 ∧
        c2.logs.length ≤ 20 :=
  claim_C6_log_buffer wState "ACME" wCompany wEntries rfl rfl (by simp [wEntries])

/-- Claim C7: the distance calculator is a pure function of its four real
arguments, vanishes on identical points and is symmetric in its two
points. -/
theorem claim_C7_distance_algebra :
    (∀ lat lng : ℝ, getDistanceFromLatLonInMeters lat lng lat lng = 0) ∧
    (∀ lat1 lon1 lat2 lon2 : ℝ,
      getDistanceFromLatLonInMeters lat1 lon1 lat2 lon2 =
        getDistanceFromLatLonInMeters lat2 lon2 lat1 lon1) :=
  ⟨dist_self, dist_symm⟩

/-- Claim C8: the haversine distance from (0,0) to (0,1) has the closed form
`6371000 * π / 180` meters and is within one percent of 111195 meters. -/
theorem claim_C8_haversine_fixture :
    getDistanceFromLatLonInMeters 0 0 0 1 = 6371000 * Real.pi / 180 ∧
    |getDistanceFromLatLonInMeters 0 0 0 1 - 111195| ≤ 111195 / 100 := by
  refine ⟨dist_zero_one, ?_⟩
  rw [dist_zero_one, abs_le]
  constructor <;> nlinarith [Real.pi_gt_d6, Real.pi_lt_d6]

lemma siteLookup_some (s : AppState) (cu : SessionUser) (user : User) (site : Site)
    (h : siteLookup s cu user = some site) :
    ∃ cid comp, cu.companyId = some cid ∧ s.companies cid = some comp ∧
      findSite comp.sites user.assignedSiteId = some site := by
  cases hcid : cu.companyId with
  | none =>
    simp only [siteLookup, hcid] at h
    exact Option.noConfusion h
  | some cid =>
    cases hcomp : s.companies cid with
    | none =>
      simp only [siteLookup, hcid, hcomp] at h
      exact Option.noConfusion h
    | some comp =>
      simp only [siteLookup, hcid, hcomp] at h
      exact ⟨cid, comp, rfl, hcomp, h⟩

lemma siteLookup_eq (s : AppState) (cu : SessionUser) (user : User) (cid : String)
    (comp : Company) (hcid : cu.companyId = some cid) (hcomp : s.companies cid = some comp) :
    siteLookup s cu user = findSite comp.sites user.assignedSiteId := by
  simp only [siteLookup, hcid, hcomp]

lemma checkIn_noGPS (s : AppState) (now : Nat) (ht lt : String)
    (hpos : s.currentPosition = none) :
    checkIn s now ht lt = (s, .noGPS) := by
  unfold checkIn
  rw [hpos]

lemma checkIn_noSite (s : AppState) (now : Nat) (ht lt : String) (pos : Pos)
    (cu : SessionUser) (user : User)
    (hpos : s.currentPosition = some pos) (hcu : s.currentUser = some cu)
    (hu : s.users cu.username = some user) (hsite : siteLookup s cu user = none) :
    checkIn s now ht lt = (s, .noSite) := by
  unfold checkIn
  simp only [hpos, hcu, hu, hsite]

lemma checkIn_tooFar (s : AppState) (now : Nat) (ht lt : String) (pos : Pos)
    (cu : SessionUser) (user : User) (site : Site)
    (hpos : s.currentPosition = some pos) (hcu : s.currentUser = some cu)
    (hu : s.users cu.username = some user) (hsite : siteLookup s cu user = some site)
    (hdist : MAX_DISTANCE_METERS <
      getDistanceFromLatLonInMeters pos.lat pos.lng site.lat site.lng) :
    checkIn s now ht lt = (s, .tooFar) := by
  unfold checkIn
  simp only [hpos, hcu, hu, hsite]
  rw [if_pos hdist]

lemma updateUser_updateUser (m : String → Option User) (k : String) (u v : User) :
    updateUser (updateUser m k u) k v = updateUser m k v := by
  funext n
  unfold updateUser
  split <;> rfl

lemma checkIn_success_eq (s : AppState) (now : Nat) (ht lt : String) (pos : Pos)
    (cu : SessionUser) (user : User) (site : Site) (cid : String) (comp : Company)
    (hpos : s.currentPosition = some pos) (hcu : s.currentUser = some cu)
    (hu : s.users cu.username = some user)
    (hcid : cu.companyId = some cid) (hcomp : s.companies cid = some comp)
    (hfind : findSite comp.sites user.assignedSiteId = some site)
    (hdist : ¬ MAX_DISTANCE_METERS <
      getDistanceFromLatLonInMeters pos.lat pos.lng site.lat site.lng) :
    checkIn s now ht lt =
      ({ s with
          users := (updateUser s.users cu.username { user with status := some .checkedIn, checkInTime := some now, lastPing := some now, history := histStep user.history ⟨pos.lat, pos.lng, ht, site.id⟩ })
          companies := (updateCompany s.companies cid { comp with logs := logStep comp.logs ⟨cu.username, "Check-In @ " ++ site.name, lt⟩ }) },
        .success) := by
  obtain ⟨us, cs, cuo, cpo, po⟩ := s
  dsimp only at hpos hcu hu hcomp
  subst hpos
  subst hcu
  have hsite : siteLookup ⟨us, cs, some cu, some pos, po⟩ cu user = some site := by
    simp only [siteLookup, hcid, hcomp]
    exact hfind
  simp only [checkIn, hu, hsite, if_neg hdist, hcid, trackLocation, updateUser_self,
    addLog, hcomp, updateUser_updateUser]

/-- Claim C1: with a logged-in employee, `checkIn` succeeds exactly when a
position is known, the assigned site resolves, and the haversine distance is
within the 100 m radius; on success the status, check-in time and company
log are updated, on failure the state is unchanged and the result names the
reason. -/
theorem claim_C1_checkIn (s : AppState) (cu : SessionUser) (user : User) (now : Nat)
    (ht lt : String)
    (hcu : s.currentUser = some cu) (hu : s.users cu.username = some user) :
    ((checkIn s now ht lt).2 = .success ↔
      ∃ pos site, s.currentPosition = some pos ∧ siteLookup s cu user = some site ∧
        getDistanceFromLatLonInMeters pos.lat pos.lng site.lat site.lng ≤
          MAX_DISTANCE_METERS) ∧
    ((checkIn s now ht lt).2 ≠ .success → (checkIn s now ht lt).1 = s) ∧
    ((checkIn s now ht lt).2 = .noGPS ↔ s.currentPosition = none) ∧
    (∀ pos site cid comp,
      s.currentPosition = some pos → cu.companyId = some cid →
      s.companies cid = some comp → findSite comp.sites user.assignedSiteId = some site →
      getDistanceFromLatLonInMeters pos.lat pos.lng site.lat site.lng ≤
        MAX_DISTANCE_METERS →
      ∃ u' c',
        (checkIn s now ht lt).1.users cu.username = some u' ∧
        u'.status = some Status.checkedIn ∧ u'.checkInTime = some now ∧
        (checkIn s now ht lt).1.companies cid = some c' ∧
        c'.logs = logStep comp.logs ⟨cu.username, "Check-In @ " ++ site.name, lt⟩) := by
  cases hpos : s.currentPosition with
  | none =>
    rw [checkIn_noGPS s now ht lt hpos]
    refine ⟨?_, fun _ => rfl, ?_, ?_⟩
    · simp
    · simp
    · intro pos site cid comp hpos2
      exact absurd hpos2 (by simp)
  | some pos =>
    cases hsite : siteLookup s cu user with
    | none =>
      rw [checkIn_noSite s now ht lt pos cu user hpos hcu hu hsite]
      refine ⟨?_, fun _ => rfl, ?_, ?_⟩
      · constructor
        · intro h; exact absurd h (by simp)
        · rintro ⟨p, st, _, hst, _⟩; exact absurd hst (by simp)
      · simp
      · intro p st cid comp hp hcid hcomp hfind hd
        rw [siteLookup_eq s cu user cid comp hcid hcomp] at hsite
        rw [hsite] at hfind
        exact absurd hfind (by simp)
    | some site =>
      obtain ⟨cid, comp, hcid, hcomp, hfind⟩ := siteLookup_some s cu user site hsite
      by_cases hdist : MAX_DISTANCE_METERS <
          getDistanceFromLatLonInMeters pos.lat pos.lng site.lat site.lng
      · rw [checkIn_tooFar s now ht lt pos cu user site hpos hcu hu hsite hdist]
        refine ⟨?_, fun _ => rfl, ?_, ?_⟩
        · constructor
          · intro h; exact absurd h (by simp)
          · rintro ⟨p, st, hp, hst, hd⟩
            injection hp with hp
            injection hst with hst
            rw [← hp, ← hst] at hd
            exact absurd hd (not_le.mpr hdist)
        · simp
        · intro p st cid2 comp2 hp hcid2 hcomp2 hfind2 hd
          injection hp with hp
          subst hp
          rw [hcid] at hcid2
          injection hcid2 with hcid2
          subst hcid2
          rw [hcomp] at hcomp2
          injection hcomp2 with hcomp2
          subst hcomp2
          rw [hfind] at hfind2
          injection hfind2 with hfind2
          subst hfind2
          exact absurd hd (not_le.mpr hdist)
      · rw [checkIn_success_eq s now ht lt pos cu user site cid comp hpos hcu hu hcid
          hcomp hfind hdist]
        refine ⟨?_, ?_, ?_, ?_⟩
        · exact ⟨fun _ => ⟨pos, site, rfl, rfl, not_lt.mp hdist⟩, fun _ => rfl⟩
        · intro h; exact absurd rfl h
        · simp
        · intro p st cid2 comp2 hp hcid2 hcomp2 hfind2 hd
          rw [hcid] at hcid2
          injection hcid2 with hcid2
          subst hcid2
          rw [hcomp] at hcomp2
          injection hcomp2 with hcomp2
          subst hcomp2
          rw [hfind] at hfind2
          injection hfind2 with hfind2
          subst hfind2
          exact ⟨_, _, updateUser_self _ _ _, rfl, rfl, updateCompany_self _ _ _, rfl⟩

/-- Witness for claim C1 at a concrete state: employee "bob" standing at his
assigned site. -/
theorem claim_C1_checkIn_witness :
    ((checkIn wState 1000 "h" "l").2 = .success ↔
      ∃ pos site, wState.currentPosition = some pos ∧
        siteLookup wState wSession wUser = some site ∧
        getDistanceFromLatLonInMeters pos.lat pos.lng site.lat site.lng ≤
          MAX_DISTANCE_METERS) ∧
    ((checkIn wState 1000 "h" "l").2 ≠ .success → (checkIn wState 1000 "h" "l").1 = wState) ∧
    ((checkIn wState 1000 "h" "l").2 = .noGPS ↔ wState.currentPosition = none) ∧
    (∀ pos site cid comp,
      wState.currentPosition = some pos → wSession.companyId = some cid →
      wState.companies cid = some comp →
      findSite comp.sites wUser.assignedSiteId = some site →
      getDistanceFromLatLonInMeters pos.lat pos.lng site.lat site.lng ≤
        MAX_DISTANCE_METERS →
      ∃ u' c',
        (checkIn wState 1000 "h" "l").1.users wSession.username = some u' ∧
        u'.status = some Status.checkedIn ∧ u'.checkInTime = some 1000 ∧
        (checkIn wState 1000 "h" "l").1.companies cid = some c' ∧
        c'.logs = logStep comp.logs ⟨wSession.username, "Check-In @ " ++ site.name, "l"⟩) :=
  claim_C1_checkIn wState wSession wUser 1000 "h" "l" rfl rfl

lemma checkOut_eq (s : AppState) (cu : SessionUser) (user : User) (cid : String)
    (comp : Company) (reason t : String)
    (hcu : s.currentUser = some cu) (hu : s.users cu.username = some user)
    (hcid : cu.companyId = some cid) (hcomp : s.companies cid = some comp) :
    checkOut s reason t =
      { s with
        users := (updateUser s.users cu.username { user with status := some .checkedOut, checkInTime := none })
        companies := (updateCompany s.companies cid { comp with logs := logStep comp.logs ⟨cu.username, reason, t⟩ }) } := by
  obtain ⟨us, cs, cuo, cpo, po⟩ := s
  dsimp only at hcu hu hcomp
  subst hcu
  simp only [checkOut, hu, hcid, addLog, hcomp]

lemma positionSample_trigger_eq (s : AppState) (p : Pos) (t : String) (cu : SessionUser)
    (user : User) (cid : String) (comp : Company) (site : Site)
    (hcu : s.currentUser = some cu) (hrole : cu.role = .employee)
    (hu : s.users cu.username = some user) (hstat : user.status = some .checkedIn)
    (hcid : cu.companyId = some cid) (hcomp : s.companies cid = some comp)
    (hfind : findSite comp.sites user.assignedSiteId = some site)
    (hdist : MAX_DISTANCE_METERS <
      getDistanceFromLatLonInMeters p.lat p.lng site.lat site.lng) :
    positionSample s p t =
      { s with
        currentPosition := some p
        users := (updateUser s.users cu.username { user with status := some .checkedOut, checkInTime := none })
        companies := (updateCompany s.companies cid { comp with logs := logStep comp.logs ⟨cu.username, "Geofence Exit", t⟩ }) } := by
  obtain ⟨us, cs, cuo, cpo, po⟩ := s
  dsimp only at hcu hu hcomp
  subst hcu
  have hsite : siteLookup ⟨us, cs, some cu, some p, po⟩ cu user = some site := by
    simp only [siteLookup, hcid, hcomp]
    exact hfind
  simp only [positionSample, hrole, monitorGeofence, hu, hstat, hsite, if_pos hdist,
    eq_self_iff_true, if_true, checkOut, hcid, addLog, hcomp, updateUser_self]

/-- Claim C2: a single position sample delivered to a checked-in employee
outside the fence forces `checkOut("Geofence Exit")` and keeps the session
alive (`currentUser` is not cleared). -/
theorem claim_C2_geofence_exit (s : AppState) (p : Pos) (t : String) (cu : SessionUser)
    (user : User) (cid : String) (comp : Company) (site : Site)
    (hcu : s.currentUser = some cu) (hrole : cu.role = .employee)
    (hu : s.users cu.username = some user) (hstat : user.status = some .checkedIn)
    (hcid : cu.companyId = some cid) (hcomp : s.companies cid = some comp)
    (hfind : findSite comp.sites user.assignedSiteId = some site)
    (hdist : MAX_DISTANCE_METERS <
      getDistanceFromLatLonInMeters p.lat p.lng site.lat site.lng) :
    ∃ u' c',
      (positionSample s p t).users cu.username = some u' ∧
      u'.status = some Status.checkedOut ∧ u'.checkInTime = none ∧
      (positionSample s p t).companies cid = some c' ∧
      c'.logs = logStep comp.logs ⟨cu.username, "Geofence Exit", t⟩ ∧
      (positionSample s p t).currentUser = some cu := by
  rw [positionSample_trigger_eq s p t cu user cid comp site hcu hrole hu hstat hcid
    hcomp hfind hdist]
  exact ⟨_, _, updateUser_self _ _ _, rfl, rfl, updateCompany_self _ _ _, rfl, hcu⟩

/-- Witness for claim C2 at a concrete state. -/
theorem claim_C2_geofence_exit_witness :
    ∃ u' c',
      (positionSample wStateGeo ⟨0, 0⟩ "t").users "bob" = some u' ∧
      u'.status = some Status.checkedOut ∧ u'.checkInTime = none ∧
      (positionSample wStateGeo ⟨0, 0⟩ "t").companies "ACME" = some c' ∧
      c'.logs = logStep wCompanyFar.logs ⟨"bob", "Geofence Exit", "t"⟩ ∧
      (positionSample wStateGeo ⟨0, 0⟩ "t").currentUser = some wSession :=
  claim_C2_geofence_exit wStateGeo ⟨0, 0⟩ "t" wSession wUserIn "ACME" wCompanyFar wSiteFar
    rfl rfl rfl rfl rfl rfl rfl dist_zero_one_gt_100

lemma login_reaches_located (s : AppState) (user : User) (uname cIn passIn cid : String)
    (hname : uname ≠ "") (huser : s.users uname = some user)
    (hcid : user.companyId = some cid) (hcIn : cIn = "" ∨ cIn = cid)
    (hpass : user.passcode = none ∨ (passIn ≠ "" ∧ user.passcode = some passIn))
    (hver : user.verified = true) :
    login s uname cIn passIn = loginLocated s user uname cid := by
  have hresolve : (if cIn = "" then user.companyId else some cIn) = some cid := by
    rcases hcIn with h | h
    · rw [if_pos h, hcid]
    · by_cases h0 : cIn = ""
      · rw [if_pos h0, hcid]
      · rw [if_neg h0, h]
  have hany : (user.companyId.any fun c => c != cid) = false := by
    rw [hcid]
    simp
  have hverified : loginVerified s user uname = loginLocated s user uname cid := by
    unfold loginVerified
    rw [hver, if_neg (by simp), hcid]
  rcases hpass with hpc | ⟨hne, hpc⟩
  · simp only [login, if_neg hname, huser, hresolve, hany, Bool.false_eq_true, if_false,
      hpc, hverified]
  · simp only [login, if_neg hname, huser, hresolve, hany, Bool.false_eq_true, if_false,
      hpc, if_neg hne, ne_eq, not_true_eq_false, eq_self_iff_true, if_true, hverified]

lemma loginLocated_deferred (s : AppState) (user : User) (uname cid : String)
    (hrole : user.role = .employee) (hpos : s.currentPosition = none) :
    loginLocated s user uname cid = (s, .deferredNoGPS) := by
  unfold loginLocated
  rw [if_pos hrole, hpos]

lemma loginLocated_companyMissing (s : AppState) (user : User) (uname cid : String)
    (pos : Pos) (hrole : user.role = .employee) (hpos : s.currentPosition = some pos)
    (hnone : s.companies cid = none) :
    loginLocated s user uname cid = (s, .companyMissing) := by
  unfold loginLocated
  rw [if_pos hrole]
  simp only [hpos, hnone]

lemma loginLocated_siteMissing (s : AppState) (user : User) (uname cid : String)
    (pos : Pos) (comp : Company)
    (hrole : user.role = .employee) (hpos : s.currentPosition = some pos)
    (hcomp : s.companies cid = some comp)
    (hfind : findSite comp.sites user.assignedSiteId = none) :
    loginLocated s user uname cid = (s, .siteMissing) := by
  unfold loginLocated
  rw [if_pos hrole]
  simp only [hpos, hcomp, hfind]

lemma loginLocated_tooFar (s : AppState) (user : User) (uname cid : String)
    (pos : Pos) (comp : Company) (site : Site)
    (hrole : user.role = .employee) (hpos : s.currentPosition = some pos)
    (hcomp : s.companies cid = some comp)
    (hfind : findSite comp.sites user.assignedSiteId = some site)
    (hdist : MAX_DISTANCE_METERS <
      getDistanceFromLatLonInMeters pos.lat pos.lng site.lat site.lng) :
    loginLocated s user uname cid = (s, .deniedTooFar) := by
  unfold loginLocated
  rw [if_pos hrole]
  simp only [hpos, hcomp, hfind]
  rw [if_pos hdist]

lemma loginLocated_success (s : AppState) (user : User) (uname cid : String)
    (pos : Pos) (comp : Company) (site : Site)
    (hrole : user.role = .employee) (hpos : s.currentPosition = some pos)
    (hcomp : s.companies cid = some comp)
    (hfind : findSite comp.sites user.assignedSiteId = some site)
    (hdist : ¬ MAX_DISTANCE_METERS <
      getDistanceFromLatLonInMeters pos.lat pos.lng site.lat site.lng) :
    loginLocated s user uname cid =
      ({ s with currentUser := some ⟨uname, user.role, user.companyId⟩ }, .success) := by
  obtain ⟨us, cs, cuo, cpo, po⟩ := s
  dsimp only at hpos hcomp
  subst hpos
  unfold loginLocated
  rw [if_pos hrole]
  simp only [hcomp, hfind]
  rw [if_neg hdist]
  rfl

/-- Claim C3: for a verified, company-linked employee, login defers (with no
state change) while no position is known, and otherwise denies exactly when
the same haversine distance to the same assigned site exceeds the same
100 m threshold that `checkIn` uses. -/
theorem claim_C3_login_gating (s : AppState) (user : User) (uname cIn passIn cid : String)
    (hname : uname ≠ "") (huser : s.users uname = some user)
    (hrole : user.role = .employee) (hver : user.verified = true)
    (hcid : user.companyId = some cid) (hcIn : cIn = "" ∨ cIn = cid)
    (hpass : user.passcode = none ∨ (passIn ≠ "" ∧ user.passcode = some passIn)) :
    (s.currentPosition = none → login s uname cIn passIn = (s, .deferredNoGPS)) ∧
    (∀ pos comp site, s.currentPosition = some pos → s.companies cid = some comp →
      findSite comp.sites user.assignedSiteId = some site →
      (((login s uname cIn passIn).2 = .deniedTooFar ↔
        MAX_DISTANCE_METERS <
          getDistanceFromLatLonInMeters pos.lat pos.lng site.lat site.lng) ∧
      ((login s uname cIn passIn).2 = .success ↔
        getDistanceFromLatLonInMeters pos.lat pos.lng site.lat site.lng ≤
          MAX_DISTANCE_METERS) ∧
      ((login s uname cIn passIn).2 = .deniedTooFar → (login s uname cIn passIn).1 = s) ∧
      (∀ now ht lt,
        (checkIn { s with currentUser := some ⟨uname, user.role, user.companyId⟩ }
            now ht lt).2 = CheckInResult.tooFar ↔
          (login s uname cIn passIn).2 = .deniedTooFar))) := by
  have hL := login_reaches_located s user uname cIn passIn cid hname huser hcid hcIn
    hpass hver
  constructor
  · intro hpos
    rw [hL, loginLocated_deferred s user uname cid hrole hpos]
  · intro pos comp site hpos hcomp hfind
    have hsite : siteLookup { s with currentUser := some ⟨uname, user.role, user.companyId⟩ }
        (⟨uname, user.role, user.companyId⟩ : SessionUser) user = some site := by
      simp only [siteLookup, hcid, hcomp]
      exact hfind
    by_cases hdist : MAX_DISTANCE_METERS <
        getDistanceFromLatLonInMeters pos.lat pos.lng site.lat site.lng
    · have hres : login s uname cIn passIn = (s, .deniedTooFar) := by
        rw [hL, loginLocated_tooFar s user uname cid pos comp site hrole hpos hcomp
          hfind hdist]
      rw [hres]
      refine ⟨⟨fun _ => hdist, fun _ => rfl⟩, ?_, fun _ => rfl, ?_⟩
      · constructor
        · intro h; exact absurd h (by simp)
        · intro hle; exact absurd hle (not_le.mpr hdist)
      · intro now ht lt
        rw [checkIn_tooFar ({ s with currentUser := some ⟨uname, user.role, user.companyId⟩ })
          now ht lt pos ⟨uname, user.role, user.companyId⟩ user site hpos rfl huser hsite hdist]
        simp
    · have hres : login s uname cIn passIn =
          ({ s with currentUser := some ⟨uname, user.role, user.companyId⟩ }, .success) := by
        rw [hL, loginLocated_success s user uname cid pos comp site hrole hpos hcomp
          hfind hdist]
      rw [hres]
      refine ⟨?_, ⟨fun _ => not_lt.mp hdist, fun _ => rfl⟩, ?_, ?_⟩
      · constructor
        · intro h; exact absurd h (by simp)
        · intro hgt; exact absurd hgt hdist
      · intro h; exact absurd h (by simp)
      · intro now ht lt
        rw [checkIn_success_eq ({ s with currentUser := some ⟨uname, user.role, user.companyId⟩ })
          now ht lt pos ⟨uname, user.role, user.companyId⟩ user site cid comp hpos rfl huser
          hcid hcomp hfind hdist]
        simp

/-- Witness for claim C3 at a concrete state: employee "bob" with a known
position standing at his assigned site. -/
theorem claim_C3_login_gating_witness :
    (wState.currentPosition = none → login wState "bob" "ACME" "" = (wState, .deferredNoGPS)) ∧
    (∀ pos comp site, wState.currentPosition = some pos →
      wState.companies "ACME" = some comp →
      findSite comp.sites wUser.assignedSiteId = some site →
      (((login wState "bob" "ACME" "").2 = .deniedTooFar ↔
        MAX_DISTANCE_METERS <
          getDistanceFromLatLonInMeters pos.lat pos.lng site.lat site.lng) ∧
      ((login wState "bob" "ACME" "").2 = .success ↔
        getDistanceFromLatLonInMeters pos.lat pos.lng site.lat site.lng ≤
          MAX_DISTANCE_METERS) ∧
      ((login wState "bob" "ACME" "").2 = .deniedTooFar →
        (login wState "bob" "ACME" "").1 = wState) ∧
      (∀ now ht lt,
        (checkIn { wState with currentUser := some ⟨"bob", wUser.role, wUser.companyId⟩ }
            now ht lt).2 = CheckInResult.tooFar ↔
          (login wState "bob" "ACME" "").2 = .deniedTooFar))) :=
  claim_C3_login_gating wState wUser "bob" "ACME" "" "ACME" (by decide) rfl rfl rfl rfl
    (Or.inr rfl) (Or.inl rfl)

/-- Claim C9: when the assigned site no longer exists or the company record
is missing, `checkIn` and employee `login` abort with a blocking error and
leave the state unchanged. -/
theorem claim_C9_referential_integrity (s : AppState) (cu : SessionUser) (user : User)
    (uname cIn passIn cid : String) (now : Nat) (ht lt : String) :
    (s.currentUser = some cu → s.users cu.username = some user →
      ∀ pos, s.currentPosition = some pos → siteLookup s cu user = none →
      checkIn s now ht lt = (s, .noSite)) ∧
    (uname ≠ "" → s.users uname = some user → user.role = .employee →
      user.verified = true → user.companyId = some cid → (cIn = "" ∨ cIn = cid) →
      (user.passcode = none ∨ (passIn ≠ "" ∧ user.passcode = some passIn)) →
      ∀ pos, s.currentPosition = some pos →
      ((s.companies cid = none → login s uname cIn passIn = (s, .companyMissing)) ∧
       (∀ comp, s.companies cid = some comp →
         findSite comp.sites user.assignedSiteId = none →
         login s uname cIn passIn = (s, .siteMissing)))) := by
  constructor
  · intro hcu hu pos hpos hsite
    exact checkIn_noSite s now ht lt pos cu user hpos hcu hu hsite
  · intro hname huser hrole hver hcid hcIn hpass pos hpos
    have hL := login_reaches_located s user uname cIn passIn cid hname huser hcid hcIn
      hpass hver
    constructor
    · intro hnone
      rw [hL, loginLocated_companyMissing s user uname cid pos hrole hpos hnone]
    · intro comp hcomp hfind
      rw [hL, loginLocated_siteMissing s user uname cid pos comp hrole hpos hcomp hfind]

/-- Witness for claim C9 at a concrete state with a missing company record. -/
theorem claim_C9_referential_integrity_witness :
    checkIn wStateNoComp 1 "h" "l" = (wStateNoComp, .noSite) ∧
    login wStateNoComp "bob" "ACME" "" = (wStateNoComp, .companyMissing) :=
  ⟨(claim_C9_referential_integrity wStateNoComp wSession wUser "bob" "ACME" "" "ACME"
      1 "h" "l").1 rfl rfl ⟨0, 0⟩ rfl rfl,
   ((claim_C9_referential_integrity wStateNoComp wSession wUser "bob" "ACME" "" "ACME"
      1 "h" "l").2 (by decide) rfl rfl rfl rfl (Or.inr rfl) (Or.inl rfl) ⟨0, 0⟩ rfl).1 rfl⟩

/-- Claim C10: a confirmed `removeEmployee(u)` by a logged-in manager filters
`u` from the manager's own roster and deletes the global record `users[u]`
unconditionally — no check of the victim's company or role — while leaving
every other user record and company untouched. -/
theorem claim_C10_removeEmployee (s : AppState) (cu : SessionUser) (cid uname : String)
    (comp : Company)
    (hcu : s.currentUser = some cu) (hrole : cu.role = .manager)
    (hcid : cu.companyId = some cid) (hcomp : s.companies cid = some comp) :
    (removeEmployee s uname).users uname = none ∧
    (∀ n, n ≠ uname → (removeEmployee s uname).users n = s.users n) ∧
    (removeEmployee s uname).companies cid =
      some { comp with employees := comp.employees.filter (fun e => e.username != uname) } ∧
    (∀ c, c ≠ cid → (removeEmployee s uname).companies c = s.companies c) := by
  obtain ⟨us, cs, cuo, cpo, po⟩ := s
  dsimp only at hcu hcomp
  subst hcu
  simp only [removeEmployee, hcid, hcomp]
  exact ⟨removeUser_self _ _, fun n h => removeUser_ne _ _ _ h,
    updateCompany_self _ _ _, fun c h => updateCompany_ne _ _ _ _ h⟩

/-- Witness for claim C10: the manager of "ACME" deletes user "bob" even
though "bob" belongs to company "OTHR". -/
theorem claim_C10_removeEmployee_witness :
    (removeEmployee wStateMgr "bob").users "bob" = none ∧
    (∀ n, n ≠ "bob" → (removeEmployee wStateMgr "bob").users n = wStateMgr.users n) ∧
    (removeEmployee wStateMgr "bob").companies "ACME" =
      some { wCompany with employees := wCompany.employees.filter (fun e => e.username != "bob") } ∧
    (∀ c, c ≠ "ACME" → (removeEmployee wStateMgr "bob").companies c = wStateMgr.companies c) :=
  claim_C10_removeEmployee wStateMgr wManagerSession "ACME" "bob" wCompany rfl rfl rfl rfl

lemma mapOK_update (m : String → Option User) (k : String) (v : User)
    (hm : ∀ n u, m n = some u → UserOK u) (hv : UserOK v) :
    ∀ n u, updateUser m k v n = some u → UserOK u := by
  intro n u h
  unfold updateUser at h
  split at h
  · injection h with h
    subst h
    exact hv
  · exact hm n u h

lemma mapOK_remove (m : String → Option User) (k : String)
    (hm : ∀ n u, m n = some u → UserOK u) :
    ∀ n u, removeUser m k n = some u → UserOK u := by
  intro n u h
  unfold removeUser at h
  split at h
  · exact absurd h (by simp)
  · exact hm n u h

lemma userOK_checkedOut_none (u : User) (hs : u.status = some Status.checkedOut)
    (ht : u.checkInTime = none) : UserOK u := by
  constructor
  · intro hh
    rw [hs] at hh
    injection hh with hh
    exact Status.noConfusion hh
  · intro _
    exact ht

lemma userOK_checkedIn_some (u : User) (hs : u.status = some Status.checkedIn)
    (n : Nat) (ht : u.checkInTime = some n) : UserOK u := by
  constructor
  · intro _
    rw [ht]
    simp
  · intro hh
    rw [hs] at hh
    injection hh with hh
    exact Status.noConfusion hh

lemma userOK_status_none (u : User) (hs : u.status = none) : UserOK u := by
  constructor
  · intro hh
    rw [hs] at hh
    exact Option.noConfusion hh
  · intro hh
    rw [hs] at hh
    exact Option.noConfusion hh

lemma statusInv_addLog (s : AppState) (cid un a t : String) (h : StatusInv s) :
    StatusInv (addLog s cid un a t) := by
  intro n u hu
  rw [addLog_users] at hu
  exact h n u hu

lemma statusInv_trackLocation (s : AppState) (sid t : String) (h : StatusInv s) :
    StatusInv (trackLocation s sid t) := by
  unfold trackLocation
  cases hpos : s.currentPosition with
  | none => exact h
  | some pos =>
    cases hcu : s.currentUser with
    | none => exact h
    | some cu =>
      dsimp only
      cases hu2 : s.users cu.username with
      | none => exact h
      | some user =>
        intro n u hu
        refine mapOK_update s.users cu.username _ h ?_ n u hu
        obtain ⟨h1, h2⟩ := h cu.username user hu2
        exact ⟨h1, h2⟩

lemma statusInv_checkOut (s : AppState) (reason t : String) (h : StatusInv s) :
    StatusInv (checkOut s reason t) := by
  unfold checkOut
  cases hcu : s.currentUser with
  | none => exact h
  | some cu =>
    dsimp only
    cases hu2 : s.users cu.username with
    | none => exact h
    | some user =>
      dsimp only
      have h1 : StatusInv { s with
          users := (updateUser s.users cu.username { user with status := some .checkedOut, checkInTime := none })
          currentUser := some cu } := by
        intro n u hu
        exact mapOK_update s.users cu.username _ h
          (userOK_checkedOut_none _ rfl rfl) n u hu
      cases hcid : cu.companyId with
      | none => exact h1
      | some cid => exact statusInv_addLog _ cid cu.username reason t h1

lemma statusInv_checkIn (s : AppState) (now : Nat) (ht lt : String) (h : StatusInv s) :
    StatusInv (checkIn s now ht lt).1 := by
  unfold checkIn
  cases hpos : s.currentPosition with
  | none => exact h
  | some pos =>
    cases hcu : s.currentUser with
    | none => exact h
    | some cu =>
      dsimp only
      cases hu2 : s.users cu.username with
      | none => exact h
      | some user =>
        dsimp only
        cases hsite : siteLookup s cu user with
        | none => exact h
        | some site =>
          dsimp only
          split
          · exact h
          · have h1 : StatusInv { s with
                users := (updateUser s.users cu.username { user with status := some .checkedIn, checkInTime := some now, lastPing := some now })
                currentUser := some cu
                currentPosition := some pos } := by
              intro n u hu
              exact mapOK_update s.users cu.username _ h
                (userOK_checkedIn_some _ rfl now rfl) n u hu
            have h2 := statusInv_trackLocation _ site.id ht h1
            cases hcid : cu.companyId with
            | none => exact h2
            | some cid => exact statusInv_addLog _ cid cu.username _ lt h2

lemma login_fst_users (s : AppState) (a b c : String) :
    (login s a b c).1.users = s.users := by
  unfold login loginVerified loginLocated loginSuccess
  repeat' first
  | rfl
  | split

lemma statusInv_login (s : AppState) (a b c : String) (h : StatusInv s) :
    StatusInv (login s a b c).1 := by
  intro n u hu
  rw [login_fst_users] at hu
  exact h n u hu

lemma statusInv_verifyAccount (s : AppState) (code : String) (h : StatusInv s) :
    StatusInv (verifyAccount s code) := by
  unfold verifyAccount
  cases hp : s.pendingUser with
  | none => exact h
  | some pname =>
    dsimp only
    cases hu2 : s.users pname with
    | none => exact h
    | some user =>
      dsimp only
      split
      · exact h
      · have h1 : ∀ n u, updateUser s.users pname { user with verified := true } n =
            some u → UserOK u := by
          refine mapOK_update s.users pname _ h ?_
          obtain ⟨ha, hb⟩ := h pname user hu2
          exact ⟨ha, hb⟩
        split
        · split
          · exact h1
          · exact h1
        · exact h1

lemma statusInv_registerNewCompany (s : AppState) (a b c d : String) (h : StatusInv s) :
    StatusInv (registerNewCompany s a b c d) := by
  unfold registerNewCompany
  split
  · exact h
  · split
    · exact h
    · intro n u hu
      exact mapOK_update s.users b _ h (userOK_status_none _ rfl) n u hu

lemma statusInv_registerNewEmployeeUser (s : AppState) (a b c d e : String)
    (h : StatusInv s) : StatusInv (registerNewEmployeeUser s a b c d e) := by
  unfold registerNewEmployeeUser
  split
  · exact h
  · split
    · exact h
    · split
      · exact h
      · intro n u hu
        exact mapOK_update s.users a _ h (userOK_checkedOut_none _ rfl rfl) n u hu

lemma addToCompanyList_users (s : AppState) (cu : SessionUser) (a b c : String) :
    (addToCompanyList s cu a b c).users = s.users := by
  unfold addToCompanyList
  cases cu.companyId with
  | none => rfl
  | some cid =>
    dsimp only
    cases s.companies cid with
    | none => rfl
    | some comp =>
      dsimp only
      split <;> rfl

lemma statusInv_addToCompanyList (s : AppState) (cu : SessionUser) (a b c : String)
    (h : StatusInv s) : StatusInv (addToCompanyList s cu a b c) := by
  intro n u hu
  rw [addToCompanyList_users] at hu
  exact h n u hu

lemma statusInv_registerEmployee (s : AppState) (a b c d : String) (h : StatusInv s) :
    StatusInv (registerEmployee s a b c d) := by
  unfold registerEmployee
  cases hcu : s.currentUser with
  | none => exact h
  | some cu =>
    dsimp only
    split
    · exact h
    · cases hu2 : s.users a with
      | none =>
        dsimp only
        apply statusInv_addToCompanyList
        intro n u hu
        exact mapOK_update s.users a _ h (userOK_checkedOut_none _ rfl rfl) n u hu
      | some user =>
        dsimp only
        obtain ⟨ha, hb⟩ := h a user hu2
        split
        · apply statusInv_addToCompanyList
          intro n u hu
          refine mapOK_update s.users a _ h ?_ n u hu
          exact ⟨ha, hb⟩
        · split
          · exact h
          · have h1 : StatusInv { s with
                users := (updateUser s.users a { user with assignedSiteId := some c }) } := by
              intro n u hu
              refine mapOK_update s.users a _ h ?_ n u hu
              exact ⟨ha, hb⟩
            split
            · exact h1
            · exact h1

lemma statusInv_removeEmployee (s : AppState) (uname : String) (h : StatusInv s) :
    StatusInv (removeEmployee s uname) := by
  unfold removeEmployee
  cases hcu : s.currentUser with
  | none => exact h
  | some cu =>
    dsimp only
    cases hcid : cu.companyId with
    | none => exact h
    | some cid =>
      dsimp only
      cases hcomp : s.companies cid with
      | none => exact h
      | some comp =>
        dsimp only
        intro n u hu
        exact mapOK_remove s.users uname h n u hu

lemma statusInv_monitorGeofence (s : AppState) (t : String) (h : StatusInv s) :
    StatusInv (monitorGeofence s t) := by
  unfold monitorGeofence
  cases hcu : s.currentUser with
  | none => exact h
  | some cu =>
    dsimp only
    cases hu2 : s.users cu.username with
    | none => exact h
    | some user =>
      dsimp only
      split
      · cases hsite : siteLookup s cu user with
        | none => exact h
        | some site =>
          dsimp only
          cases hpos : s.currentPosition with
          | none => exact h
          | some pos =>
            dsimp only
            split
            · exact statusInv_checkOut s "Geofence Exit" t h
            · exact h
      · exact h

lemma statusInv_positionSample (s : AppState) (p : Pos) (t : String) (h : StatusInv s) :
    StatusInv (positionSample s p t) := by
  unfold positionSample
  cases hcu : s.currentUser with
  | none => exact h
  | some cu =>
    dsimp only
    have h1 : StatusInv { s with currentPosition := some p, currentUser := some cu } := h
    split
    · exact statusInv_monitorGeofence _ t h1
    · exact h1

/-- Claim C4: every command of the system preserves the invariant that a
checked-in user has a non-null `checkInTime` and a checked-out user a null
one. -/
theorem claim_C4_status_invariant (s : AppState) (op : Op) (h : StatusInv s) :
    StatusInv (step s op) := by
  cases op with
  | opRegisterCompany a b c d => exact statusInv_registerNewCompany s a b c d h
  | opRegisterEmployeeSelf a b c d e => exact statusInv_registerNewEmployeeUser s a b c d e h
  | opRegisterEmployee a b c d => exact statusInv_registerEmployee s a b c d h
  | opVerify c => exact statusInv_verifyAccount s c h
  | opLogin a b c => exact statusInv_login s a b c h
  | opCheckIn n ht lt => exact statusInv_checkIn s n ht lt h
  | opCheckOut r t => exact statusInv_checkOut s r t h
  | opPositionSample p t => exact statusInv_positionSample s p t h
  | opRemoveEmployee u => exact statusInv_removeEmployee s u h

lemma statusInv_wState : StatusInv wState := by
  intro n u hu
  unfold wState at hu
  dsimp only at hu
  split at hu
  · injection hu with hu
    subst hu
    exact userOK_checkedOut_none _ rfl rfl
  · exact absurd hu (by simp)

/-- Witness for claim C4: the invariant holds at the concrete fixture state
and is preserved by a concrete `checkIn` step. -/
theorem claim_C4_status_invariant_witness :
    StatusInv (step wState (Op.opCheckIn 1000 "h" "l")) :=
  claim_C4_status_invariant wState (Op.opCheckIn 1000 "h" "l") statusInv_wState

end HRApp
